import Mathlib

/-!
Verification of the Diff Digest application: a shallow embedding of the
generate-notes route handler, the client streaming reconstructor, the
per-item note state machine, the batch processor and the local cache,
together with theorems settling the specified properties.
-/

namespace DiffDigest

/-- Result of the platform JSON parser projected onto the two note fields.
A field is `none` when the parsed object lacks it; the TypeScript interface
GeneratedNotes ascribes strings but the runtime value carries whatever the
parser produced. -/
structure GeneratedNotes where
  developerNote : Option String
  marketingNote : Option String
deriving Repr, DecidableEq

/-- Per-diff note state, one value of the NotesState map: a loading flag, an
error message and the data payload. -/
structure NoteEntry where
  loading : Bool
  error : Option String
  data : Option GeneratedNotes
deriving Repr, DecidableEq

/-- The platform JSON parser (JSON.parse), an external collaborator: it
either fails or yields an object, observed through its two note fields. -/
abbrev JsonParse := String → Option GeneratedNotes

/-! ## Server endpoint: the generate-notes POST handler -/

/-- The destructured request body of the generate-notes route; a field is
`none` when the incoming JSON lacks it or carries null. -/
structure GenRequest where
  id : Option String
  description : Option String
  diff : Option String
deriving Repr, DecidableEq

/-- Outcome of the upstream model invocation: either streaming begins, or the
call throws with an optional status field on the error object. -/
inductive UpstreamOutcome where
  | ok
  | err (status : Option Nat)
deriving Repr, DecidableEq

/-- Observable response of the route handler: the 400 bad-request body, a
failure body with its derived status, or the SSE stream. -/
inductive PostResponse where
  | badRequest
  | failure (status : Nat)
  | sseStream
deriving Repr, DecidableEq

/-- The generate-notes POST handler. It destructures the body, then logs a
preview that dereferences diff.length before any validation runs: when diff
is null or absent that dereference throws a TypeError, which the catch block
converts to a failure response with status 500 since a TypeError has no
status field. Only afterwards does the null check run, answering 400 when a
field is missing, and otherwise the model is invoked and its events are
relayed as SSE. -/
def POST (req : GenRequest) (upstream : UpstreamOutcome) : PostResponse :=
  match req.diff with
  | none => PostResponse.failure 500
  | some _ =>
    if req.id.isNone || req.description.isNone || req.diff.isNone then
      PostResponse.badRequest
    else
      match upstream with
      | UpstreamOutcome.ok => PostResponse.sseStream
      | UpstreamOutcome.err (some s) => PostResponse.failure s
      | UpstreamOutcome.err none => PostResponse.failure 500

/-! ## Incremental JSON reconstructor (client, generateNotes stream loop) -/

/-- Whether the first list is an initial segment of the second. -/
def leadsChars : List Char → List Char → Bool
  | [], _ => true
  | _ :: _, [] => false
  | a :: as, b :: bs => a == b && leadsChars as bs

/-- Whether the needle occurs somewhere in the haystack. -/
def includesChars (needle : List Char) : List Char → Bool
  | [] => leadsChars needle []
  | b :: bs => leadsChars needle (b :: bs) || includesChars needle bs

/-- JavaScript `s.includes t`. -/
def strIncludes (s t : String) : Bool := includesChars t.data s.data

/-- The repair heuristic of the delta handler: append a closing brace when
the buffer does not end with one, then prepend an opening brace when the
result does not start with one. -/
def fixJson (s : String) : String :=
  let s1 := if s.endsWith "\x7d" then s else s ++ "\x7d"
  if s1.startsWith "\x7b" then s1 else "\x7b" ++ s1

/-- The guard under which the delta handler attempts a speculative parse:
the accumulated text contains a closing brace and both field-name markers. -/
def specCond (s : String) : Bool :=
  strIncludes s "\x7d" && strIncludes s "\"developerNote\"" &&
    strIncludes s "\"marketingNote\""

/-- An SSE frame as seen by the client after envelope parsing: a delta
fragment, the terminal done event with its full text, or any other event
type, which the client ignores. -/
inductive SSEEvent where
  | delta (d : String)
  | doneEv (text : String)
  | other
deriving Repr, DecidableEq

/-- State threaded through one generateNotes stream run for one diff id:
the React-held accumulator state for the id, the current note entry, and
the chronological list of note-entry writes performed so far. -/
structure RunState where
  reactAccum : String
  entry : NoteEntry
  updates : List NoteEntry
deriving Repr, DecidableEq

/-- A setNotes call: record the new entry and append it to the write log. -/
def pushEntry (st : RunState) (e : NoteEntry) : RunState :=
  { st with entry := e, updates := st.updates ++ [e] }

/-- The entry written by a successful speculative parse: still loading, no
error, and each note field defaulted to the empty string when absent. -/
def specEntry (p : GeneratedNotes) : NoteEntry :=
  ⟨true, none, some ⟨some (p.developerNote.getD ""), some (p.marketingNote.getD "")⟩⟩

/-- The delta handler. The source reads the accumulator from the render-time
closure snapshot `snap` (the jsonAccumulator binding captured when the
running generateNotes closure was created), not from the React state it
keeps writing, so the text it works on is snap ++ delta. It stores that
back, and when the guard holds it repairs and parses, updating the data and
keeping loading true on success and doing nothing on failure. -/
def processDelta (parse : JsonParse) (snap : String) (st : RunState)
    (d : String) : RunState :=
  let updatedJson := snap ++ d
  let st1 := { st with reactAccum := updatedJson }
  if specCond updatedJson then
    match parse (fixJson updatedJson) with
    | some p => pushEntry st1 (specEntry p)
    | none => st1
  else st1

/-- Process one SSE frame: deltas go to the delta handler; a done event
parses its text and on success writes the terminal entry, on failure only
logs; other event types are ignored. -/
def processEvent (parse : JsonParse) (snap : String) (st : RunState) :
    SSEEvent → RunState
  | SSEEvent.delta d => processDelta parse snap st d
  | SSEEvent.doneEv text =>
    match parse text with
    | some p => pushEntry st ⟨false, none, some p⟩
    | none => st
  | SSEEvent.other => st

/-- Process a run of SSE frames in arrival order. -/
def processEvents (parse : JsonParse) (snap : String) (st : RunState)
    (evs : List SSEEvent) : RunState :=
  evs.foldl (processEvent parse snap) st

/-! ## generateNotes: guard, transport outcomes and per-attempt trace -/

/-- JavaScript falsiness of the error field: null and the empty string are
falsy, any other message is truthy. -/
def errFalsy : Option String → Bool
  | none => true
  | some s => s == ""

/-- The cached-notes guard at the top of generateNotes (and the first skip
of the batch loop): the entry exists with truthy data, is not loading and
has a falsy error. -/
def cacheGuard : Option NoteEntry → Bool
  | none => false
  | some e => e.data.isSome && !e.loading && errFalsy e.error

/-- The entry written when a generation attempt starts: loading, no error,
data initialized to empty-string notes. -/
def startEntry : NoteEntry := ⟨true, none, some ⟨some "", some ""⟩⟩

/-- How one generation attempt plays out at the transport level: the fetch
throws, the response is not ok, the body is missing, the stream delivers
frames and closes, or it delivers frames and then a read throws. -/
inductive FetchOutcome where
  | fetchErr (msg : String)
  | httpErr (status : Nat)
  | noBody
  | stream (evs : List SSEEvent)
  | streamThenErr (evs : List SSEEvent) (msg : String)
deriving Repr, DecidableEq

/-- The message of the error thrown on a non-ok response. -/
def httpErrMsg (s : Nat) : String := "HTTP error! status: " ++ toString s

/-- The entry written by the catch block of generateNotes. -/
def catchEntry (msg : String) : NoteEntry := ⟨false, some msg, none⟩

/-- The initial run state of one attempt: accumulator state reset, the
start entry just written. -/
def initRun : RunState := ⟨"", startEntry, []⟩

/-- The note-entry writes performed after the start entry, for a given
transport outcome: each failure lands in the catch block, a stream is
processed frame by frame, and a mid-stream failure appends the catch
write after the frames already processed. -/
def runStream (parse : JsonParse) (snap : String) : FetchOutcome → List NoteEntry
  | FetchOutcome.fetchErr msg => [catchEntry msg]
  | FetchOutcome.httpErr s => [catchEntry (httpErrMsg s)]
  | FetchOutcome.noBody => [catchEntry "No response body"]
  | FetchOutcome.stream evs => (processEvents parse snap initRun evs).updates
  | FetchOutcome.streamThenErr evs msg =>
    (processEvents parse snap initRun evs).updates ++ [catchEntry msg]

/-- The descriptive message carried by a failing outcome, `none` for a
stream that closes without throwing. -/
def failureMessage : FetchOutcome → Option String
  | FetchOutcome.fetchErr m => some m
  | FetchOutcome.httpErr s => some (httpErrMsg s)
  | FetchOutcome.noBody => some "No response body"
  | FetchOutcome.streamThenErr _ m => some m
  | FetchOutcome.stream _ => none

/-- The chronological list of note-entry writes of one generateNotes call,
given the previous entry for the id: empty when the cached-notes guard
returns early, otherwise the loading reset followed by the stream writes. -/
def generateNotesTrace (parse : JsonParse) (snap : String)
    (outcome : FetchOutcome) (prev : Option NoteEntry) : List NoteEntry :=
  if cacheGuard prev then [] else startEntry :: runStream parse snap outcome

/-- The entry for the id after one generateNotes call: unchanged when the
guard returns early, otherwise the last write of the attempt. -/
def generateNotesResult (parse : JsonParse) (snap : String)
    (outcome : FetchOutcome) (prev : Option NoteEntry) : Option NoteEntry :=
  if cacheGuard prev then prev
  else some ((runStream parse snap outcome).getLastD startEntry)

/-! ## Keyed note state and the local cache -/

/-- The notes map of the page, as an association list keyed by diff id. -/
abbrev NotesState := List (String × NoteEntry)

/-- A persisted cache record: the stamp time and the note data. -/
structure CacheEntry where
  timestamp : Int
  data : GeneratedNotes
deriving Repr, DecidableEq

/-- The persisted cache, keyed by diff id. -/
abbrev NotesCache := List (String × CacheEntry)

/-- First value stored under a key, the object-lookup semantics of the
notes and cache maps. -/
def lookupKey {α : Type} (s : List (String × α)) (k : String) : Option α :=
  (s.find? (fun kv => kv.1 == k)).map (fun kv => kv.2)

/-- Remove every pair stored under a key. -/
def eraseKey {α : Type} (s : List (String × α)) (k : String) :
    List (String × α) :=
  s.filter (fun kv => kv.1 != k)

/-- Functional update of the notes map, the spread-update setNotes performs:
the key now maps to the new entry and every other key is untouched. -/
def insertEntry (s : NotesState) (k : String) (e : NoteEntry) : NotesState :=
  (k, e) :: eraseKey s k

/-- The cache TTL constant: 24 hours in milliseconds. -/
def cacheExpiration : Int := 24 * 60 * 60 * 1000

/-- One step of saveNotesToCache: an entry is persisted exactly when it is
not loading, its error is falsy and its data is non-null, and it is stamped
with the current time of this save pass. -/
def persistEntry (now : Int) (kv : String × NoteEntry) :
    Option (String × CacheEntry) :=
  if kv.2.loading = false ∧ errFalsy kv.2.error = true ∧ kv.2.data.isSome then
    kv.2.data.map (fun d => (kv.1, ⟨now, d⟩))
  else none

/-- saveNotesToCache: rebuild the persisted cache from the current notes
map, keeping only successfully generated entries, each stamped now. -/
def saveNotesToCache (notes : NotesState) (now : Int) : NotesCache :=
  notes.filterMap (persistEntry now)

/-- One step of loadNotesFromCache: a record younger than the TTL is seeded
back as a done entry with no error; an expired record is dropped. -/
def loadEntry (now : Int) (kv : String × CacheEntry) :
    Option (String × NoteEntry) :=
  if now - kv.2.timestamp < cacheExpiration then
    some (kv.1, ⟨false, none, some kv.2.data⟩)
  else none

/-- loadNotesFromCache: the notes state seeded from the persisted cache. -/
def loadNotesFromCache (cache : NotesCache) (now : Int) : NotesState :=
  cache.filterMap (loadEntry now)

/-! ## Batch processor (generateAllNotes) -/

/-- A diff item as fetched by the pager. -/
structure DiffItem where
  id : String
  description : String
  diff : String
  url : String
deriving Repr, DecidableEq

/-- Whether an entry is currently loading, false for a missing entry. -/
def entryLoading : Option NoteEntry → Bool
  | none => false
  | some e => e.loading

/-- The batch skip test: the first continue fires on the cached-notes
guard, the second on a loading entry. -/
def batchSkip (e : Option NoteEntry) : Bool := cacheGuard e || entryLoading e

/-- A batch trace event: a generation for an id starts, or it reaches its
terminal state (generateNotes resolves). -/
inductive BatchEv where
  | start (i : String)
  | finish (i : String)
deriving Repr, DecidableEq

/-- Accumulator of the batch loop: the live notes map and the trace of
start and finish events so far. -/
structure BatchAcc where
  cur : NotesState
  trace : List BatchEv
deriving Repr, DecidableEq

/-- Invoke generateNotes for one item and await it: the start and finish
events bracket nothing else, and the resulting entry is stored. -/
def invokeFor (parse : JsonParse) (snapOf : String → String)
    (outcomeOf : String → FetchOutcome) (acc : BatchAcc) (d : DiffItem)
    (e0 : Option NoteEntry) : BatchAcc :=
  let res := generateNotesResult parse (snapOf d.id) (outcomeOf d.id) e0
  { cur :=
      match res with
      | some e => insertEntry acc.cur d.id e
      | none => acc.cur
    trace := acc.trace ++ [BatchEv.start d.id, BatchEv.finish d.id] }

/-- One iteration of the generateAllNotes loop. Both skip checks and the
guard inside generateNotes consult the notes binding captured by the render
that created the running closures, `notes0`, not the live map. -/
def batchStep (parse : JsonParse) (snapOf : String → String)
    (outcomeOf : String → FetchOutcome) (notes0 : NotesState)
    (acc : BatchAcc) (d : DiffItem) : BatchAcc :=
  let e0 := lookupKey notes0 d.id
  if batchSkip e0 then acc else invokeFor parse snapOf outcomeOf acc d e0

/-- generateAllNotes: the sequential batch loop over the fetched diffs. -/
def generateAllNotes (parse : JsonParse) (snapOf : String → String)
    (outcomeOf : String → FetchOutcome) (notes0 : NotesState)
    (diffs : List DiffItem) : BatchAcc :=
  diffs.foldl (batchStep parse snapOf outcomeOf notes0) ⟨notes0, []⟩

/-- Modelled from the spec wording of the batch contract, for comparison
with the source loop: here each skip decision consults the note state as it
stands at that point of the run rather than the render snapshot. -/
def batchStepAtPoint (parse : JsonParse) (snapOf : String → String)
    (outcomeOf : String → FetchOutcome) (acc : BatchAcc) (d : DiffItem) :
    BatchAcc :=
  let e0 := lookupKey acc.cur d.id
  if batchSkip e0 then acc else invokeFor parse snapOf outcomeOf acc d e0

/-- The batch loop with at-that-point skip decisions. -/
def generateAllNotesAtPoint (parse : JsonParse) (snapOf : String → String)
    (outcomeOf : String → FetchOutcome) (notes0 : NotesState)
    (diffs : List DiffItem) : BatchAcc :=
  diffs.foldl (batchStepAtPoint parse snapOf outcomeOf) ⟨notes0, []⟩

/-- A trace is serial when it is a sequence of start events each followed
immediately by the finish of the same id: no two generations overlap. -/
def serialTrace : List BatchEv → Bool
  | [] => true
  | BatchEv.start i :: BatchEv.finish j :: rest => i == j && serialTrace rest
  | _ => false

/-! ## Reachable note states (every setNotes call site of the page) -/

/-- The setNotes operations of the page: the loading reset at the start of
an attempt, a successful speculative parse, a parsed done event, the catch
block of a failed attempt, and the wholesale replacement performed when the
cache is loaded at startup. -/
inductive NotesOp where
  | startGen (i : String)
  | speculative (i : String) (p : GeneratedNotes)
  | doneParse (i : String) (p : GeneratedNotes)
  | failGen (i : String) (msg : String)
  | loadCache (cache : NotesCache) (now : Int)

/-- Apply one setNotes operation to the notes map. -/
def applyOp (s : NotesState) : NotesOp → NotesState
  | NotesOp.startGen i => insertEntry s i startEntry
  | NotesOp.speculative i p => insertEntry s i (specEntry p)
  | NotesOp.doneParse i p => insertEntry s i ⟨false, none, some p⟩
  | NotesOp.failGen i msg => insertEntry s i (catchEntry msg)
  | NotesOp.loadCache cache now => loadNotesFromCache cache now

/-- The notes states reachable from the initial empty map through the
setNotes call sites of the page. -/
inductive Reachable : NotesState → Prop
  | init : Reachable []
  | step (s : NotesState) (op : NotesOp) : Reachable s → Reachable (applyOp s op)

/-! ## Theorems -/

/-- The accumulator value stored by a delta step is always the closure
snapshot followed by the single new delta, whatever the parser does. -/
theorem processDelta_reactAccum (parse : JsonParse) (snap : String)
    (st : RunState) (d : String) :
    (processDelta parse snap st d).reactAccum = snap ++ d := by
  unfold processDelta
  dsimp only
  by_cases hc : specCond (snap ++ d) = true
  · simp only [hc, if_true]
    cases parse (fixJson (snap ++ d)) <;> rfl
  · simp only [hc, if_false, Bool.false_eq_true]

/-- First delta of the C1 failing input. -/
def c1delta1 : String := "\x7b\"developerNote\":\"a\",\"marketingNote\":\"b\""

/-- Second delta of the C1 failing input. -/
def c1delta2 : String := "\x7d"

/-- C1: refuted on the code. After the two deltas of the failing input are
processed in one run (closure snapshot empty, a fresh first generation),
the stored accumulator is only the second delta, not the concatenation of
both: the delta handler reads the accumulator from the stale render-time
snapshot instead of the state it keeps writing. Moreover the direct
concatenation satisfies the speculative-parse guard while the text the code
actually works on does not, so the partial parse the claim describes is
never even attempted. -/
theorem c1_accumulator_not_concatenation : ∀ parse : JsonParse,
    (processEvents parse "" initRun
      [SSEEvent.delta c1delta1, SSEEvent.delta c1delta2]).reactAccum = c1delta2
    ∧ c1delta2 ≠ c1delta1 ++ c1delta2
    ∧ specCond (c1delta1 ++ c1delta2) = true
    ∧ specCond c1delta2 = false := by
  intro parse
  refine ⟨?_, by decide, by decide, by decide⟩
  show (processDelta parse ""
      (processEvent parse "" initRun (SSEEvent.delta c1delta1)) c1delta2).reactAccum
    = c1delta2
  rw [processDelta_reactAccum]
  decide

/-- C2: confirmed. If processing one SSE frame changes the entry and leaves
it not loading, the frame was a done event whose text parsed, and the entry
is exactly the done state built from that parse: a speculative repair never
produces a terminal state. -/
theorem c2_done_only_from_done_event (parse : JsonParse) (snap : String)
    (st : RunState) (ev : SSEEvent)
    (h1 : (processEvent parse snap st ev).entry.loading = false)
    (h2 : (processEvent parse snap st ev).entry ≠ st.entry) :
    ∃ text p, ev = SSEEvent.doneEv text ∧ parse text = some p ∧
      (processEvent parse snap st ev).entry = ⟨false, none, some p⟩ := by
  cases ev with
  | delta d =>
    exfalso
    unfold processEvent processDelta at h1 h2
    dsimp only at h1 h2
    by_cases hc : specCond (snap ++ d) = true
    · simp only [hc, if_true] at h1 h2
      cases hp : parse (fixJson (snap ++ d)) with
      | none => rw [hp] at h2; exact h2 rfl
      | some p => rw [hp] at h1; simp [pushEntry, specEntry] at h1
    · simp only [hc, if_false, Bool.false_eq_true] at h1 h2
      exact h2 rfl
  | doneEv text =>
    cases hp : parse text with
    | none =>
      exfalso
      unfold processEvent at h2
      dsimp only at h2
      rw [hp] at h2
      exact h2 rfl
    | some p =>
      refine ⟨text, p, rfl, hp, ?_⟩
      unfold processEvent
      dsimp only
      rw [hp]
      rfl
  | other => exact absurd rfl h2

/-- C2 witness: a concrete done frame whose text parses produces the done
entry from the parsed value. -/
theorem c2_witness : ∃ text p, SSEEvent.doneEv "t" = SSEEvent.doneEv text ∧
    (fun _ : String => some (GeneratedNotes.mk (some "x") (some "y"))) text = some p ∧
    (processEvent (fun _ => some (GeneratedNotes.mk (some "x") (some "y"))) ""
      initRun (SSEEvent.doneEv "t")).entry = ⟨false, none, some p⟩ :=
  c2_done_only_from_done_event
    (fun _ => some (GeneratedNotes.mk (some "x") (some "y"))) "" initRun
    (SSEEvent.doneEv "t") (by decide) (by decide)

/-- C3: refuted on the code. The route logs a preview that dereferences
diff.length before the validation check runs, so a body missing diff makes
the handler throw and answer 500 instead of 400; a body missing only id or
only description does reach the check and gets 400. -/
theorem c3_missing_diff_gives_500_not_400 : ∀ upstream : UpstreamOutcome,
    POST ⟨some "1", some "Fix caching bug", none⟩ upstream = PostResponse.failure 500
    ∧ PostResponse.failure 500 ≠ PostResponse.badRequest
    ∧ POST ⟨none, some "Fix caching bug", some "patch"⟩ upstream = PostResponse.badRequest
    ∧ POST ⟨some "1", none, some "patch"⟩ upstream = PostResponse.badRequest := by
  intro upstream
  exact ⟨rfl, by decide, rfl, rfl⟩

/-- A previously successful done entry, for the C4 counterexample. -/
def c4doneEntry : NoteEntry := ⟨false, none, some ⟨some "a", some "b"⟩⟩

/-- C4 counterexample: invoking generation again for an id whose entry is
done with no error performs no state write at all and leaves the entry as
it was, still not loading — the claimed reset to loading does not happen. -/
theorem c4_done_entry_not_reset :
    generateNotesTrace (fun _ => none) "" FetchOutcome.noBody (some c4doneEntry) = []
    ∧ generateNotesResult (fun _ => none) "" FetchOutcome.noBody (some c4doneEntry)
      = some c4doneEntry
    ∧ c4doneEntry.loading = false := by
  exact ⟨by decide, by decide, rfl⟩

/-- C4 amended: whenever the previous entry does not pass the cached-notes
guard (in particular after a terminal error), re-invoking generation first
writes the loading reset — loading true, error cleared, data reset to
empty-string notes — before any other write of the new attempt. -/
theorem c4_retrigger_resets_when_not_cached (parse : JsonParse) (snap : String)
    (outcome : FetchOutcome) (prev : Option NoteEntry)
    (hg : cacheGuard prev = false) :
    (generateNotesTrace parse snap outcome prev).head? = some startEntry
    ∧ startEntry.loading = true ∧ startEntry.error = none
    ∧ startEntry.data = some ⟨some "", some ""⟩ := by
  unfold generateNotesTrace
  simp only [hg, if_false, Bool.false_eq_true]
  exact ⟨rfl, rfl, rfl, rfl⟩

/-- C4 witness: a concrete entry in the error state is reset. -/
theorem c4_witness :
    (generateNotesTrace (fun _ => none) "" FetchOutcome.noBody
      (some ⟨false, some "boom", none⟩)).head? = some startEntry
    ∧ startEntry.loading = true ∧ startEntry.error = none
    ∧ startEntry.data = some ⟨some "", some ""⟩ :=
  c4_retrigger_resets_when_not_cached (fun _ => none) "" FetchOutcome.noBody
    (some ⟨false, some "boom", none⟩) (by decide)

/-- C5: confirmed. A done event whose text fails to parse changes nothing:
the whole run state, entry included, is exactly what it was before the
frame; the failure is only logged. -/
theorem c5_unparsable_done_is_noop (parse : JsonParse) (snap : String)
    (st : RunState) (text : String) (h : parse text = none) :
    processEvent parse snap st (SSEEvent.doneEv text) = st := by
  unfold processEvent
  dsimp only
  rw [h]

/-- C5 witness: a truncated done payload leaves the run state untouched. -/
theorem c5_witness :
    processEvent (fun _ => none) "" initRun
      (SSEEvent.doneEv "\x7b\"developerNote\":") = initRun :=
  c5_unparsable_done_is_noop (fun _ => none) "" initRun "\x7b\"developerNote\":" rfl

/-- C6: confirmed. Every attempt whose transport outcome carries a failure
message — the fetch threw, the response was not ok, the body was missing,
or a stream read threw — ends with the entry set to that descriptive error
message, not loading, with data cleared to null. -/
theorem c6_transport_failure_sets_error (parse : JsonParse) (snap : String)
    (outcome : FetchOutcome) (prev : Option NoteEntry) (msg : String)
    (hg : cacheGuard prev = false) (hf : failureMessage outcome = some msg) :
    generateNotesResult parse snap outcome prev = some ⟨false, some msg, none⟩ := by
  unfold generateNotesResult
  simp only [hg, if_false, Bool.false_eq_true]
  cases outcome with
  | fetchErr m =>
    simp only [failureMessage, Option.some.injEq] at hf
    subst hf
    rfl
  | httpErr s =>
    simp only [failureMessage, Option.some.injEq] at hf
    subst hf
    rfl
  | noBody =>
    simp only [failureMessage, Option.some.injEq] at hf
    subst hf
    rfl
  | stream evs => exact absurd hf (by simp [failureMessage])
  | streamThenErr evs m =>
    simp only [failureMessage, Option.some.injEq] at hf
    subst hf
    simp [runStream, List.getLastD_concat, catchEntry]

/-- C6 witness: a missing response body yields the no-body error entry. -/
theorem c6_witness :
    generateNotesResult (fun _ => none) "" FetchOutcome.noBody none
      = some ⟨false, some "No response body", none⟩ :=
  c6_transport_failure_sets_error (fun _ => none) "" FetchOutcome.noBody none
    "No response body" rfl rfl

/-! ## Association-list lemmas -/

/-- A keyed filterMap step that keeps the key of every pair it keeps. -/
def keyPreserving {α β : Type} (f : (String × α) → Option (String × β)) : Prop :=
  ∀ kv w, f kv = some w → w.1 = kv.1

theorem keys_filterMap_sublist {α β : Type}
    (f : (String × α) → Option (String × β)) (hf : keyPreserving f) :
    ∀ l : List (String × α),
      ((l.filterMap f).map Prod.fst).Sublist (l.map Prod.fst) := by
  intro l
  induction l with
  | nil => simp
  | cons kv rest ih =>
    cases hw : f kv with
    | none =>
      rw [List.filterMap_cons_none hw]
      exact ih.cons kv.1
    | some w =>
      rw [List.filterMap_cons_some hw, List.map_cons, List.map_cons,
        hf kv w hw]
      exact ih.cons₂ kv.1

theorem lookupKey_eq_none {α : Type} (l : List (String × α)) (k : String)
    (h : k ∉ l.map Prod.fst) : lookupKey l k = none := by
  unfold lookupKey
  rw [List.find?_eq_none.mpr]
  · rfl
  · intro kv hkv hbeq
    exact h (List.mem_map.mpr ⟨kv, hkv, eq_of_beq hbeq⟩)

theorem lookupKey_mem {α : Type} (l : List (String × α)) (k : String) (v : α)
    (h : lookupKey l k = some v) : (k, v) ∈ l := by
  unfold lookupKey at h
  cases hf : l.find? (fun kv => kv.1 == k) with
  | none => rw [hf] at h; cases h
  | some kv =>
    rw [hf] at h
    have hm := List.mem_of_find?_eq_some hf
    have hp0 := List.find?_some hf
    have hp : (kv.1 == k) = true := hp0
    have hv : kv.2 = v := Option.some.inj h
    have hk : kv.1 = k := eq_of_beq hp
    have : kv = (k, v) := Prod.ext hk hv
    exact this ▸ hm

/-- Looking a key up through a key-preserving filterMap over a map with
distinct keys is filtering the looked-up value. -/
theorem lookupKey_filterMap {α β : Type}
    (f : (String × α) → Option (String × β)) (hf : keyPreserving f) :
    ∀ (l : List (String × α)), (l.map Prod.fst).Nodup → ∀ k : String,
      lookupKey (l.filterMap f) k =
        (lookupKey l k).bind (fun v => (f (k, v)).map Prod.snd) := by
  intro l
  induction l with
  | nil => intro _ k; rfl
  | cons kv rest ih =>
    intro hnd k
    have hnd2 : (rest.map Prod.fst).Nodup := (List.nodup_cons.mp hnd).2
    have hnotin : kv.1 ∉ rest.map Prod.fst := (List.nodup_cons.mp hnd).1
    by_cases hk : kv.1 = k
    · subst hk
      have hlk : lookupKey (kv :: rest) kv.1 = some kv.2 := by
        unfold lookupKey
        rw [List.find?_cons_of_pos _ (by simp)]
        rfl
      rw [hlk]
      cases hw : f kv with
      | none =>
        rw [List.filterMap_cons_none hw]
        have hout : kv.1 ∉ (rest.filterMap f).map Prod.fst := fun hin =>
          hnotin ((keys_filterMap_sublist f hf rest).subset hin)
        rw [lookupKey_eq_none _ _ hout]
        have : f (kv.1, kv.2) = none := by rw [← hw]
        rw [Option.some_bind, this]
        rfl
      | some w =>
        rw [List.filterMap_cons_some hw]
        have hwk : w.1 = kv.1 := hf kv w hw
        have hlk2 : lookupKey (w :: rest.filterMap f) kv.1 = some w.2 := by
          unfold lookupKey
          rw [List.find?_cons_of_pos _ (by simp [hwk])]
          rfl
        rw [hlk2]
        have : f (kv.1, kv.2) = some w := by rw [← hw]
        rw [Option.some_bind, this]
        rfl
    · have hlk : lookupKey (kv :: rest) k = lookupKey rest k := by
        unfold lookupKey
        rw [List.find?_cons_of_neg _ (by simp [hk])]
      rw [hlk]
      cases hw : f kv with
      | none =>
        rw [List.filterMap_cons_none hw]
        exact ih hnd2 k
      | some w =>
        have hwk : w.1 = kv.1 := hf kv w hw
        rw [List.filterMap_cons_some hw]
        have hlk2 : lookupKey (w :: rest.filterMap f) k =
            lookupKey (rest.filterMap f) k := by
          unfold lookupKey
          rw [List.find?_cons_of_neg _ (by simp [hwk, hk])]
        rw [hlk2]
        exact ih hnd2 k

/-- Membership in an updated notes map: the new pair, or an old pair. -/
theorem mem_insertEntry {s : NotesState} {i k : String} {v e : NoteEntry}
    (h : (k, e) ∈ insertEntry s i v) : (k = i ∧ e = v) ∨ (k, e) ∈ s := by
  unfold insertEntry eraseKey at h
  rcases List.mem_cons.mp h with h | h
  · left
    exact ⟨congrArg Prod.fst h, congrArg Prod.snd h⟩
  · right
    exact List.mem_of_mem_filter h

theorem lookupKey_insert_ne (s : NotesState) (i k : String) (e : NoteEntry)
    (h : ¬ k = i) : lookupKey (insertEntry s i e) k = lookupKey s k := by
  unfold insertEntry lookupKey eraseKey
  rw [List.find?_cons_of_neg _ (by simp only [beq_iff_eq]; exact fun hx => h hx.symm),
    List.find?_filter]
  have hpred : (fun a : String × NoteEntry =>
      decide ((fun kv => kv.1 != i) a = true ∧ (fun kv => kv.1 == k) a = true)) =
      (fun kv : String × NoteEntry => kv.1 == k) := by
    funext kv
    by_cases hkv : kv.1 = k
    · simp [hkv, h]
    · simp [hkv]
  rw [hpred]

theorem persistEntry_keyPreserving (t : Int) : keyPreserving (persistEntry t) := by
  intro kv w h
  unfold persistEntry at h
  by_cases hc : kv.2.loading = false ∧ errFalsy kv.2.error = true ∧ kv.2.data.isSome
  · rw [if_pos hc] at h
    cases hd : kv.2.data with
    | none => rw [hd] at h; cases h
    | some d => rw [hd] at h; cases Option.some.inj h; rfl
  · rw [if_neg hc] at h; cases h

theorem loadEntry_keyPreserving (t : Int) : keyPreserving (loadEntry t) := by
  intro kv w h
  unfold loadEntry at h
  by_cases hc : t - kv.2.timestamp < cacheExpiration
  · rw [if_pos hc] at h; cases Option.some.inj h; rfl
  · rw [if_neg hc] at h; cases h

/-- C8: confirmed. Saving a done entry with no error at time t0, then
reloading at time t1, reproduces the identical notes value seeded back as a
done entry with error null exactly when the age t1 - t0 is under the 24-hour
TTL; an entry whose age reaches the TTL is absent after the reload. -/
theorem c8_cache_round_trip (notes : NotesState) (t0 t1 : Int) (k : String)
    (e : NoteEntry) (d : GeneratedNotes)
    (hnd : (notes.map Prod.fst).Nodup)
    (hk : lookupKey notes k = some e)
    (hl : e.loading = false) (he : e.error = none) (hd : e.data = some d) :
    lookupKey (loadNotesFromCache (saveNotesToCache notes t0) t1) k =
      if t1 - t0 < cacheExpiration then some ⟨false, none, some d⟩ else none := by
  have hnd2 : ((saveNotesToCache notes t0).map Prod.fst).Nodup :=
    (keys_filterMap_sublist (persistEntry t0)
      (persistEntry_keyPreserving t0) notes).nodup hnd
  unfold loadNotesFromCache
  rw [lookupKey_filterMap (loadEntry t1) (loadEntry_keyPreserving t1) _ hnd2]
  unfold saveNotesToCache
  rw [lookupKey_filterMap (persistEntry t0) (persistEntry_keyPreserving t0) _ hnd,
    hk, Option.some_bind]
  have hpe : persistEntry t0 (k, e) = some (k, ⟨t0, d⟩) := by
    unfold persistEntry
    rw [if_pos ⟨hl, by rw [he]; rfl, by rw [hd]; rfl⟩, hd]
    rfl
  rw [hpe]
  show (loadEntry t1 (k, ⟨t0, d⟩)).map Prod.snd = _
  unfold loadEntry
  by_cases ht : t1 - t0 < cacheExpiration
  · rw [if_pos ht, if_pos ht]
    rfl
  · rw [if_neg ht, if_neg ht]
    rfl

/-- C8 witness: a concrete done entry saved at time 0 and reloaded at time
10 comes back identical. -/
theorem c8_witness :
    lookupKey (loadNotesFromCache (saveNotesToCache
      [("1", ⟨false, none, some ⟨some "a", some "b"⟩⟩)] 0) 10) "1" =
      if (10 : Int) - 0 < cacheExpiration then
        some ⟨false, none, some ⟨some "a", some "b"⟩⟩ else none :=
  c8_cache_round_trip [("1", ⟨false, none, some ⟨some "a", some "b"⟩⟩)] 0 10 "1"
    ⟨false, none, some ⟨some "a", some "b"⟩⟩ ⟨some "a", some "b"⟩
    (by decide) (by decide) rfl rfl rfl

/-- Notes map with one previously persisted done entry, for C9. -/
def c9notes : NotesState := [("1", ⟨false, none, some ⟨some "a", some "b"⟩⟩)]

/-- C9 counterexample: two save passes over the same unchanged done entry at
times 1 and 2 stamp timestamps 1 and 2 respectively — the entry already
present in the persisted cache from the first pass does not retain its
original timestamp on the next pass. -/
theorem c9_timestamp_not_retained :
    lookupKey (saveNotesToCache c9notes 1) "1" = some ⟨1, ⟨some "a", some "b"⟩⟩
    ∧ lookupKey (saveNotesToCache c9notes 2) "1" = some ⟨2, ⟨some "a", some "b"⟩⟩
    ∧ (1 : Int) ≠ 2 := ⟨by decide, by decide, by decide⟩

/-- C9 amended: on every save pass only entries that are done with no error
are persisted, and every persisted entry — whether or not it was already in
the persisted cache — is stamped with the current time of that pass. Stated
over note states satisfying the reachable-state shape (a truthy error
implies null data), with distinct keys. -/
theorem c9_save_persists_done_stamped_now (notes : NotesState) (now : Int)
    (k : String)
    (hnd : (notes.map Prod.fst).Nodup)
    (hinv : ∀ kv ∈ notes, (kv : String × NoteEntry).2.error ≠ none →
      kv.2.data = none) :
    lookupKey (saveNotesToCache notes now) k =
      match lookupKey notes k with
      | some e =>
        if e.loading = false ∧ e.error = none ∧ e.data.isSome then
          e.data.map (fun d => ⟨now, d⟩)
        else none
      | none => none := by
  unfold saveNotesToCache
  rw [lookupKey_filterMap (persistEntry now) (persistEntry_keyPreserving now)
    _ hnd]
  cases hk : lookupKey notes k with
  | none => rfl
  | some e =>
    rw [Option.some_bind]
    have hmem : (k, e) ∈ notes := lookupKey_mem notes k e hk
    have hie : e.error ≠ none → e.data = none := hinv (k, e) hmem
    obtain ⟨el, ee, ed⟩ := e
    cases el with
    | true => simp [persistEntry, errFalsy]
    | false =>
      cases ee with
      | none =>
        cases ed with
        | none => simp [persistEntry, errFalsy]
        | some d => simp [persistEntry, errFalsy]
      | some msg =>
        cases ed with
        | none => simp [persistEntry, errFalsy]
        | some d =>
          have hc : (some d : Option GeneratedNotes) = none :=
            hie (fun h => Option.noConfusion h)
          cases hc

/-- C9 amended witness: a concrete save pass at time 5 stamps 5. -/
theorem c9_save_witness :
    lookupKey (saveNotesToCache c9notes 5) "1" =
      match lookupKey c9notes "1" with
      | some e =>
        if e.loading = false ∧ e.error = none ∧ e.data.isSome then
          e.data.map (fun d => ⟨5, d⟩)
        else none
      | none => none :=
  c9_save_persists_done_stamped_now c9notes 5 "1" (by decide) (by decide)

/-- C10: confirmed. In every notes state reachable through the setNotes
call sites of the page, an entry that is loading has error null and
non-null data. -/
theorem c10_loading_entry_wellformed (s : NotesState) (hs : Reachable s) :
    ∀ k e, (k, e) ∈ s → e.loading = true →
      e.error = none ∧ e.data.isSome = true := by
  induction hs with
  | init =>
    intro k e hm _
    cases hm
  | step s op _ ih =>
    intro k e hm hl
    cases op with
    | startGen i =>
      rcases mem_insertEntry hm with h | h
      · rw [h.2]; exact ⟨rfl, rfl⟩
      · exact ih k e h hl
    | speculative i p =>
      rcases mem_insertEntry hm with h | h
      · rw [h.2]; exact ⟨rfl, rfl⟩
      · exact ih k e h hl
    | doneParse i p =>
      rcases mem_insertEntry hm with h | h
      · rw [h.2] at hl; cases hl
      · exact ih k e h hl
    | failGen i msg =>
      rcases mem_insertEntry hm with h | h
      · rw [h.2] at hl; cases hl
      · exact ih k e h hl
    | loadCache cache now =>
      exfalso
      obtain ⟨kv, _, hkv⟩ := List.mem_filterMap.mp hm
      unfold loadEntry at hkv
      by_cases hc : now - kv.2.timestamp < cacheExpiration
      · rw [if_pos hc] at hkv
        have he : e = ⟨false, none, some kv.2.data⟩ :=
          (congrArg Prod.snd (Option.some.inj hkv)).symm
        rw [he] at hl
        cases hl
      · rw [if_neg hc] at hkv
        cases hkv

/-- C10 witness: the state after starting one generation is reachable and
its loading entry has error null and non-null data. -/
theorem c10_witness : startEntry.error = none ∧ startEntry.data.isSome = true :=
  c10_loading_entry_wellformed (applyOp [] (NotesOp.startGen "1"))
    (Reachable.step [] (NotesOp.startGen "1") Reachable.init)
    "1" startEntry (by decide) rfl

theorem batch_trace_foldl (parse : JsonParse) (snapOf : String → String)
    (outcomeOf : String → FetchOutcome) (notes0 : NotesState) :
    ∀ (diffs : List DiffItem) (acc : BatchAcc),
      (diffs.foldl (batchStep parse snapOf outcomeOf notes0) acc).trace =
        acc.trace ++ diffs.flatMap (fun d =>
          if batchSkip (lookupKey notes0 d.id) then []
          else [BatchEv.start d.id, BatchEv.finish d.id]) := by
  intro diffs
  induction diffs with
  | nil => intro acc; simp
  | cons d rest ih =>
    intro acc
    rw [List.foldl_cons, ih, List.flatMap_cons]
    unfold batchStep
    by_cases hs : batchSkip (lookupKey notes0 d.id) = true
    · rw [if_pos hs, if_pos hs, List.nil_append]
    · rw [if_neg hs, if_neg hs]
      unfold invokeFor
      cases generateNotesResult parse (snapOf d.id) (outcomeOf d.id)
          (lookupKey notes0 d.id) <;>
        simp

theorem batch_atPoint_agrees (parse : JsonParse) (snapOf : String → String)
    (outcomeOf : String → FetchOutcome) (notes0 : NotesState) :
    ∀ (diffs : List DiffItem) (acc : BatchAcc),
      (diffs.map DiffItem.id).Nodup →
      (∀ d ∈ diffs, lookupKey acc.cur d.id = lookupKey notes0 d.id) →
      diffs.foldl (batchStep parse snapOf outcomeOf notes0) acc =
        diffs.foldl (batchStepAtPoint parse snapOf outcomeOf) acc := by
  intro diffs
  induction diffs with
  | nil => intro acc _ _; rfl
  | cons d rest ih =>
    intro acc hnd hagree
    have hd : lookupKey acc.cur d.id = lookupKey notes0 d.id :=
      hagree d (List.mem_cons_self d rest)
    have hnd2 : (rest.map DiffItem.id).Nodup :=
      (List.nodup_cons.mp (by simpa using hnd)).2
    have hdid : d.id ∉ rest.map DiffItem.id :=
      (List.nodup_cons.mp (by simpa using hnd)).1
    have hspec : batchStepAtPoint parse snapOf outcomeOf acc d =
        batchStep parse snapOf outcomeOf notes0 acc d := by
      show (if batchSkip (lookupKey acc.cur d.id) then acc
        else invokeFor parse snapOf outcomeOf acc d (lookupKey acc.cur d.id)) =
        batchStep parse snapOf outcomeOf notes0 acc d
      rw [hd]
      rfl
    rw [List.foldl_cons, List.foldl_cons, hspec]
    unfold batchStep
    by_cases hs : batchSkip (lookupKey notes0 d.id) = true
    · rw [if_pos hs]
      exact ih acc hnd2 (fun d2 hd2 => hagree d2 (List.mem_cons_of_mem d hd2))
    · rw [if_neg hs]
      apply ih _ hnd2
      intro d2 hd2
      have hne : ¬ d2.id = d.id := fun hEq =>
        hdid (hEq ▸ List.mem_map_of_mem DiffItem.id hd2)
      unfold invokeFor
      cases generateNotesResult parse (snapOf d.id) (outcomeOf d.id)
          (lookupKey notes0 d.id) with
      | none => exact hagree d2 (List.mem_cons_of_mem d hd2)
      | some e2 =>
        show lookupKey (insertEntry acc.cur d.id e2) d2.id = _
        rw [lookupKey_insert_ne acc.cur d.id d2.id e2 hne]
        exact hagree d2 (List.mem_cons_of_mem d hd2)

theorem flatMap_skip_filter (notes0 : NotesState) (diffs : List DiffItem) :
    diffs.flatMap (fun d =>
      if batchSkip (lookupKey notes0 d.id) then ([] : List BatchEv)
      else [BatchEv.start d.id, BatchEv.finish d.id]) =
    ((diffs.filter fun d => !batchSkip (lookupKey notes0 d.id)).map
      DiffItem.id).flatMap (fun i => [BatchEv.start i, BatchEv.finish i]) := by
  induction diffs with
  | nil => rfl
  | cons d rest ih =>
    rw [List.flatMap_cons]
    by_cases hs : batchSkip (lookupKey notes0 d.id) = true
    · rw [if_pos hs, List.filter_cons_of_neg (by simp [hs]), ih,
        List.nil_append]
    · rw [if_neg hs,
        List.filter_cons_of_pos (by simp [Bool.eq_false_iff.mpr hs]),
        List.map_cons, List.flatMap_cons, ih]

theorem serialTrace_blocks : ∀ l : List String,
    serialTrace (l.flatMap fun i => [BatchEv.start i, BatchEv.finish i]) = true := by
  intro l
  induction l with
  | nil => rfl
  | cons i rest ih =>
    rw [List.flatMap_cons]
    show (i == i && serialTrace (rest.flatMap fun i =>
      [BatchEv.start i, BatchEv.finish i])) = true
    rw [ih, beq_self_eq_true]
    rfl

/-- C7: confirmed, for runs whose diff ids are pairwise distinct (the ids
are unique in the data model). The batch loop takes its skip decisions on
the render-time snapshot, which under distinct ids coincides with the note
state at that point of the run; an item is invoked exactly when its entry
is neither done-with-no-error nor loading, the invocations happen in list
order, and the trace is serial: every start is immediately followed by the
finish of the same id, so no two generations for an id (or any two batch
generations at all) are in flight together. -/
theorem c7_batch_skips_and_serializes (parse : JsonParse)
    (snapOf : String → String) (outcomeOf : String → FetchOutcome)
    (notes0 : NotesState) (diffs : List DiffItem)
    (hnd : (diffs.map DiffItem.id).Nodup) :
    generateAllNotes parse snapOf outcomeOf notes0 diffs =
      generateAllNotesAtPoint parse snapOf outcomeOf notes0 diffs
    ∧ (generateAllNotes parse snapOf outcomeOf notes0 diffs).trace =
      ((diffs.filter fun d => !batchSkip (lookupKey notes0 d.id)).map
        DiffItem.id).flatMap (fun i => [BatchEv.start i, BatchEv.finish i])
    ∧ serialTrace (generateAllNotes parse snapOf outcomeOf notes0 diffs).trace
      = true := by
  have h1 : generateAllNotes parse snapOf outcomeOf notes0 diffs =
      generateAllNotesAtPoint parse snapOf outcomeOf notes0 diffs :=
    batch_atPoint_agrees parse snapOf outcomeOf notes0 diffs
      ⟨notes0, []⟩ hnd (fun _ _ => rfl)
  have h2 : (generateAllNotes parse snapOf outcomeOf notes0 diffs).trace =
      ((diffs.filter fun d => !batchSkip (lookupKey notes0 d.id)).map
        DiffItem.id).flatMap (fun i => [BatchEv.start i, BatchEv.finish i]) := by
    unfold generateAllNotes
    rw [batch_trace_foldl parse snapOf outcomeOf notes0 diffs ⟨notes0, []⟩]
    rw [show (⟨notes0, []⟩ : BatchAcc).trace = [] from rfl, List.nil_append]
    exact flatMap_skip_filter notes0 diffs
  refine ⟨h1, h2, ?_⟩
  rw [h2]
  exact serialTrace_blocks _

/-- Snapshot note state for the C7 witness: id a done, id b loading. -/
def c7notes0 : NotesState :=
  [("a", ⟨false, none, some ⟨some "x", some "y"⟩⟩),
   ("b", ⟨true, none, some ⟨some "", some ""⟩⟩)]

/-- Three diffs with distinct ids for the C7 witness. -/
def c7diffs : List DiffItem :=
  [⟨"a", "da", "pa", "ua"⟩, ⟨"b", "db", "pb", "ub"⟩, ⟨"c", "dc", "pc", "uc"⟩]

/-- C7 witness: a concrete batch over three items, the first already done,
the second loading, the third fresh; only the third is generated. -/
theorem c7_witness :
    generateAllNotes (fun _ => none) (fun _ => "")
      (fun _ => FetchOutcome.noBody) c7notes0 c7diffs =
      generateAllNotesAtPoint (fun _ => none) (fun _ => "")
        (fun _ => FetchOutcome.noBody) c7notes0 c7diffs
    ∧ (generateAllNotes (fun _ => none) (fun _ => "")
        (fun _ => FetchOutcome.noBody) c7notes0 c7diffs).trace =
      ((c7diffs.filter fun d => !batchSkip (lookupKey c7notes0 d.id)).map
        DiffItem.id).flatMap (fun i => [BatchEv.start i, BatchEv.finish i])
    ∧ serialTrace (generateAllNotes (fun _ => none) (fun _ => "")
        (fun _ => FetchOutcome.noBody) c7notes0 c7diffs).trace = true :=
  c7_batch_skips_and_serializes (fun _ => none) (fun _ => "")
    (fun _ => FetchOutcome.noBody) c7notes0 c7diffs (by decide)

end DiffDigest
